import Mathlib

/-!
Verification of the analytics aggregation engine of `analytics-exporter`
(`internal/prometheus/prometheus_helper.go` and the Prometheus collector
bridge), via a shallow embedding in Lean.

Modelling conventions:
* Go `time.Time` values are embedded as `Int` nanoseconds since an epoch;
  `time.Duration` constants become the corresponding `Int` nanosecond counts.
* Go `map[string]T` is embedded as an association list `List (String × T)`
  kept in first-insertion order.  Go map iteration order is unspecified; every
  statement proved about map contents (sums of values, lookups) is independent
  of iteration order.
* Go `float64` values are embedded as `GoFloat`: an exact rational, or the
  non-finite values `nan` / `posInf` that Go integer-to-float division
  produces on a zero denominator.  The only float operation the code performs
  is `float64(a)/float64(b)` on non-negative integer counts, which is modelled
  as exact rational division (with `0/0 = NaN` and `a/0 = +Inf` for `a > 0`,
  exactly as in Go).
* `database.Database.List` is abstracted to the event list it returns: the
  model of `GetAnalyticsStats` takes the stored events directly (the Go
  nil-database check and store-error propagation happen before any of the
  behaviour the claims are about).  The wall-clock "now" used by
  `time.Since` is an explicit parameter.
* Go's `sort.Slice` (unstable, comparator `Timestamp.Before`) is embedded as
  `List.insertionSort` with the same strict comparator; all proved statements
  depend on the result only through being a permutation sorted by timestamp.
* The regex `(?:https?://)?([^/]+)(.*)` used by `extractDomainAndPath` is
  embedded by its leftmost-first (Go/RE2) matching semantics: the match starts
  at the first non-`'/'` character, the optional scheme prefix is preferred
  when it is followed by a non-`'/'` character, `[^/]+` greedily takes the
  run of non-slash characters (newlines included), and `(.*)` takes the rest
  of the string up to a newline (`.` does not match `'\n'` in RE2).
-/

/-- Go `float64` results produced by the aggregation: an exact rational or a
non-finite division result. -/
inductive GoFloat where
  | nan : GoFloat
  | posInf : GoFloat
  | val : ℚ → GoFloat
deriving DecidableEq, Repr

/-- Go `float64(a) / float64(b)` on non-negative integer counts: division by
zero yields NaN for `0/0` and +Inf otherwise; nonzero denominators give the
exact rational quotient `a / b` (built with `mkRat`). -/
def goDiv (a b : Nat) : GoFloat :=
  if b = 0 then (if a = 0 then GoFloat.nan else GoFloat.posInf)
  else GoFloat.val (mkRat a b)

/-- The `Device` protobuf oneof: exactly one of tablet/mobile/desktop/bot may
be set; `Option.none` models an absent/unset device message. -/
inductive DeviceKind where
  | tablet : DeviceKind
  | mobile : DeviceKind
  | desktop : DeviceKind
  | bot : DeviceKind
deriving DecidableEq, Repr

/-- The `analytics.Event` protobuf message (fields consumed by the
aggregation; `ID`, `Domain`, `Meta`, `Props` are carried through unused by
`GetAnalyticsStats` and are kept/omitted accordingly).  `EType` embeds the
proto field `Type` (a Lean keyword).  `Timestamp` is nanoseconds. -/
structure Event where
  ID : String
  EType : String
  URL : String
  Domain : String
  Referrer : String
  Browser : String
  OS : String
  Device : Option DeviceKind
  HashedVisit : String
  Timestamp : Int
deriving DecidableEq, Repr

/-- The `Visit` struct of `prometheus_helper.go`. -/
structure Visit where
  EntryPage : String
  ExitPage : String
  PagesVisited : Nat
  LastPageViewTimestamp : Int
deriving DecidableEq, Repr

/-- The `AnalyticsStats` struct.  The Go `int64` counts are all non-negative
and embedded as `Nat`; the `float64` bounce rate is a `GoFloat`. -/
structure AnalyticsStats where
  UniqueVisitors : Nat
  TotalVisits : Nat
  TotalPageViews : Nat
  CurrentVisitors : Nat
  BounceRate : GoFloat
  PagesRate : List (String × Nat)
  SourcesRate : List (String × Nat)
  DevicesRate : List (String × Nat)
  OSsRate : List (String × Nat)
  BrowsersRate : List (String × Nat)
  EntryPagesRate : List (String × Nat)
  ExitPagesRate : List (String × Nat)
deriving DecidableEq, Repr

/-- Lookup in an association list modelling a Go map (first matching key). -/
def lookupA {α : Type} : List (String × α) → String → Option α
  | [], _ => none
  | (k, v) :: rest, key => if k = key then some v else lookupA rest key

/-- Go map assignment `m[key] = w`: replace the value at an existing key,
or append a new binding. -/
def setA {α : Type} : List (String × α) → String → α → List (String × α)
  | [], key, w => [(key, w)]
  | (k, v) :: rest, key, w =>
      if k = key then (key, w) :: rest else (k, v) :: setA rest key w

/-- Go `m[key]++` on a `map[string]int` (missing keys read as 0). -/
def bump : List (String × Nat) → String → List (String × Nat)
  | [], key => [(key, 1)]
  | (k, v) :: rest, key =>
      if k = key then (k, v + 1) :: rest else (k, v) :: bump rest key

/-- Value read from a counter map (Go missing-key default 0). -/
def getVal (m : List (String × Nat)) (key : String) : Nat :=
  (lookupA m key).getD 0

/-- Sum of all values of a counter map. -/
def sumVals (m : List (String × Nat)) : Nat :=
  (m.map Prod.snd).sum

/-- Total number of reconstructed sessions stored in a visits map. -/
def numVisits (m : List (String × List Visit)) : Nat :=
  (m.map (fun kv => kv.2.length)).sum

/-- `VisitDuration = time.Minute * 30`, in nanoseconds. -/
def VisitDuration : Int := 30 * 60 * 1000000000

/-- The current-visitor window `5 * time.Minute`, in nanoseconds. -/
def currentVisitorWindow : Int := 5 * 60 * 1000000000

/-- `true` iff the list starts with a character other than `'/'` (the regex
fragment `[^/]` applied to the head). -/
def headIsNonSlash : List Char → Bool
  | [] => false
  | c :: _ => c != '/'

/-- The optional scheme prefix `(?:https?://)?` of the URL regex, under
leftmost-first semantics: the prefix branch is preferred, but only succeeds
when `[^/]+` can still match afterwards (i.e. the prefix is followed by a
non-slash character); `https://` is tried before `http://`. -/
def dropScheme (l : List Char) : List Char :=
  if l.take 8 = "https://".toList && headIsNonSlash (l.drop 8) then l.drop 8
  else if l.take 7 = "http://".toList && headIsNonSlash (l.drop 7) then l.drop 7
  else l

/-- `extractDomainAndPath` of `prometheus_helper.go`: Go-regex
(`(?:https?://)?([^/]+)(.*)`, leftmost-first, unanchored) decomposition of a
link into (domain, path).  The match starts at the first non-`'/'` character
(no such character means no match and an error); the domain is the maximal
run of non-slash characters after the optional scheme; the path is the rest
of the string up to a newline, defaulting to `"/"` when empty. -/
def extractCore (l : List Char) : Option (List Char × List Char) :=
  let t := l.dropWhile (fun c => c == '/')
  if t.isEmpty then none
  else
    let u := dropScheme t
    let domain := u.takeWhile (fun c => c != '/')
    let rest := u.dropWhile (fun c => c != '/')
    let path := rest.takeWhile (fun c => c != '\n')
    some (domain, if path.isEmpty then ['/'] else path)

/-- `extractDomainAndPath` wraps the character-level match: no match (no
non-slash character at all, e.g. the empty string) is the error case. -/
def extractDomainAndPath (link : String) : Except String (String × String) :=
  match extractCore link.toList with
  | none =>
      Except.error ("unable to extract domain and path from the link: "
        ++ link)
  | some (domain, path) => Except.ok (String.mk domain, String.mk path)

/-- `regexp.MustCompile("\.html$").ReplaceAllString(path, "")`: strip one
trailing `.html` (RE2 `$` matches only at end of text by default). -/
def stripHtmlSuffix (path : String) : String :=
  let l := path.toList
  if ".html".toList.isSuffixOf l then String.mk (l.take (l.length - 5))
  else path

/-- `strings.Split(s, ".")` on the character list: the dot-separated labels
of a host name (empty labels included, as in Go). -/
def splitOnDot : List Char → List (List Char)
  | [] => [[]]
  | c :: rest =>
      let r := splitOnDot rest
      if c = '.' then [] :: r
      else
        match r with
        | [] => [[c]]
        | h :: t => (c :: h) :: t

/-- The short source label of the referrer classification: split the referrer
domain on `"."`; when there is more than one label, reverse and join the
first two of the reversal (i.e. the last two labels of the host, in original
order); otherwise keep the full domain. -/
def shortSourceLabel (fullReferrerDomain : String) : String :=
  let referrerDomains := (splitOnDot fullReferrerDomain.toList).map String.mk
  match referrerDomains.reverse with
  | a :: b :: _ => b ++ "." ++ a
  | _ => fullReferrerDomain

/-- The referrer/source classification step of the per-event loop: empty
referrer increments `"Direct/None"`; otherwise the referrer is decomposed
(errors abort), and the short label is incremented only when the referrer
domain differs from the event's own URL domain. -/
def sourceUpdate (sources : List (String × Nat)) (fullUrlDomain : String)
    (referrer : String) : Except String (List (String × Nat)) :=
  if referrer = "" then Except.ok (bump sources "Direct/None")
  else
    match extractDomainAndPath referrer with
    | Except.error msg => Except.error msg
    | Except.ok (fullReferrerDomain, _) =>
        if fullUrlDomain ≠ fullReferrerDomain then
          Except.ok (bump sources (shortSourceLabel fullReferrerDomain))
        else
          Except.ok sources

/-- The device `switch`: desktop, mobile, tablet, bot in order (the oneof
makes at most one true), anything unset falls to `"Unknown"`. -/
def deviceBucket : Option DeviceKind → String
  | some DeviceKind.desktop => "Desktop"
  | some DeviceKind.mobile => "Mobile"
  | some DeviceKind.tablet => "Tablet"
  | some DeviceKind.bot => "Bot"
  | none => "Unknown"

/-- OS bucket: the literal OS string, `"Unknown"` when empty. -/
def osBucket (os : String) : String :=
  if os = "" then "Unknown" else os

/-- Browser bucket: the literal browser string, `"Unknown"` when empty. -/
def browserBucket (browser : String) : String :=
  if browser = "" then "Unknown" else browser

/-- A freshly opened session: entry page = exit page = this page, page count
1, last seen = the event timestamp. -/
def newVisit (page : String) (ts : Int) : Visit :=
  { EntryPage := page, ExitPage := page, PagesVisited := 1,
    LastPageViewTimestamp := ts }

/-- The session-reconstruction step of the per-event loop.  A new fingerprint
opens a fresh session list; otherwise the event timestamp is compared with
the *last* session's last-seen timestamp: a gap above `VisitDuration` appends
a brand-new session, and otherwise the last session is extended in place
(exit page, page count, last seen).  Stored session lists are never empty
(each starts as a one-element list), so the `getLast? = none` branch is
unreachable; Go would panic there (`v[len(v)-1]` on an empty slice) and the
model arbitrarily opens a fresh session. -/
def addVisitEvent (m : List (String × List Visit)) (fp page : String)
    (ts : Int) : List (String × List Visit) :=
  match lookupA m fp with
  | none => setA m fp [newVisit page ts]
  | some v =>
    match v.getLast? with
    | none => setA m fp [newVisit page ts]
    | some lastVisit =>
        if ts - lastVisit.LastPageViewTimestamp > VisitDuration then
          setA m fp (v ++ [newVisit page ts])
        else
          setA m fp (v.dropLast ++
            [{ lastVisit with
                ExitPage := page,
                PagesVisited := lastVisit.PagesVisited + 1,
                LastPageViewTimestamp := ts }])

/-- The per-event accumulator state of `GetAnalyticsStats` (the local
variables of the loop). -/
structure AggState where
  pageViewsCount : Nat
  pages : List (String × Nat)
  sources : List (String × Nat)
  devices : List (String × Nat)
  oss : List (String × Nat)
  browsers : List (String × Nat)
  visitsMap : List (String × List Visit)
deriving Repr

/-- The initial (empty) accumulator state. -/
def initAggState : AggState :=
  { pageViewsCount := 0, pages := [], sources := [], devices := [],
    oss := [], browsers := [], visitsMap := [] }

/-- One iteration of the `for _, e := range sortedEvents` loop: count page
views for `"pageview"` events, decompose the URL (errors abort the whole
aggregation), strip `.html` from the page key, bump the page counter, fold
the event into the visits map, classify the referrer source (errors abort),
and bump the device/OS/browser buckets. -/
def processEvent (st : AggState) (e : Event) : Except String AggState :=
  match extractDomainAndPath e.URL with
  | Except.error msg => Except.error msg
  | Except.ok (fullUrlDomain, urlPath0) =>
    let urlPath := stripHtmlSuffix urlPath0
    match sourceUpdate st.sources fullUrlDomain e.Referrer with
    | Except.error msg => Except.error msg
    | Except.ok sources' =>
        Except.ok
          { pageViewsCount :=
              if e.EType = "pageview" then st.pageViewsCount + 1
              else st.pageViewsCount,
            pages := bump st.pages urlPath,
            sources := sources',
            devices := bump st.devices (deviceBucket e.Device),
            oss := bump st.oss (osBucket e.OS),
            browsers := bump st.browsers (browserBucket e.Browser),
            visitsMap := addVisitEvent st.visitsMap e.HashedVisit urlPath
              e.Timestamp }

/-- `sort.Slice(events, func(i, j) { return t_i.Before(t_j) })`: sort the
events ascending by timestamp (ties in an unspecified order in Go; the model
fixes one order, and nothing proved depends on tie order). -/
def sortEvents (events : List Event) : List Event :=
  events.insertionSort (fun a b => a.Timestamp < b.Timestamp)

/-- The post-pass over the reconstructed sessions plus the final struct
assembly: bounce candidates (page count 1), current visitors (last seen
within five minutes of "now" in absolute value), entry/exit page counters,
total visits, and the final derived values, including
`float64(onePageVisits) / float64(pageViewsCount)`. -/
def mkStats (st : AggState) (now : Int) : AnalyticsStats :=
  let allVisits := (st.visitsMap.map Prod.snd).flatten
  let onePageVisits := allVisits.countP (fun v => v.PagesVisited == 1)
  let currentVisitors := allVisits.countP
    (fun v => (now - v.LastPageViewTimestamp).natAbs < currentVisitorWindow.natAbs)
  let entryPages := allVisits.foldl (fun m v => bump m v.EntryPage) []
  let exitPages := allVisits.foldl (fun m v => bump m v.ExitPage) []
  { UniqueVisitors := st.visitsMap.length,
    TotalVisits := allVisits.length,
    TotalPageViews := st.pageViewsCount,
    CurrentVisitors := currentVisitors,
    BounceRate := goDiv onePageVisits st.pageViewsCount,
    PagesRate := st.pages,
    SourcesRate := st.sources,
    DevicesRate := st.devices,
    OSsRate := st.oss,
    BrowsersRate := st.browsers,
    EntryPagesRate := entryPages,
    ExitPagesRate := exitPages }

/-- The `for _, e := range sortedEvents` loop: events are processed in
order and any per-event error returns immediately with no snapshot. -/
def runEvents (st : AggState) : List Event → Except String AggState
  | [] => Except.ok st
  | e :: rest =>
      match processEvent st e with
      | Except.error msg => Except.error msg
      | Except.ok st' => runEvents st' rest

/-- `GetAnalyticsStats`, abstracted over the event list the store returns and
the wall-clock instant `now`: sort by timestamp, run the per-event loop
(any error aborts with no snapshot), then run the session post-pass. -/
def GetAnalyticsStats (events : List Event) (now : Int) :
    Except String AnalyticsStats :=
  (runEvents initAggState (sortEvents events)).map (fun st => mkStats st now)

/-- A `prometheus.Desc` as built by `prometheus.NewDesc`: fully-qualified
name, help text, variable label names, constant labels. -/
structure MetricDesc where
  fqName : String
  help : String
  variableLabels : List String
  constLabels : List (String × String)
deriving DecidableEq, Repr

/-- The `AnalyticsCollector` struct (the logger, mutex and database handle do
not influence `Describe`; the database is abstracted to the event list it
returns at scrape time). -/
structure AnalyticsCollector where
  metrics : List (String × MetricDesc)
  domain : String
deriving DecidableEq, Repr

/-- `NewAnalyticsCollector`: builds the fixed metrics map (12 descriptors,
in source order, all carrying the same constant labels). -/
def NewAnalyticsCollector (constLabels : List (String × String))
    (domain : String) : AnalyticsCollector :=
  { metrics := [
      ("unique_visitors_total",
        ⟨"unique_visitors_total", "Total number of unique visitors", [], constLabels⟩),
      ("visits_total",
        ⟨"visits_total", "Total number of visitors", [], constLabels⟩),
      ("total_page_views",
        ⟨"page_views", "Total number of page views", [], constLabels⟩),
      ("current_visitors",
        ⟨"current_visitors", "Current visitors", [], constLabels⟩),
      ("bounce_rate",
        ⟨"bounce_rate", "Bounce rate in %", [], constLabels⟩),
      ("page_rate",
        ⟨"page_rate", "Rating of page", ["page"], constLabels⟩),
      ("source_rate",
        ⟨"source_rate", "Rating of source", ["source"], constLabels⟩),
      ("os_rate",
        ⟨"os_rate", "Rating of OS", ["os"], constLabels⟩),
      ("browser_rate",
        ⟨"browser_rate", "Rating of browser", ["browser"], constLabels⟩),
      ("device_rate",
        ⟨"device_rate", "Rating of device", ["device"], constLabels⟩),
      ("entry_pages_rate",
        ⟨"entry_pages_rate", "Rating of entry pages", ["page"], constLabels⟩),
      ("exit_pages_rate",
        ⟨"exit_pages_rate", "Rating of exit pages", ["page"], constLabels⟩)],
    domain := domain }

/-- `Describe`: sends every descriptor of the (immutable) metrics map.  Go
map iteration order is unspecified; the model emits them in insertion order,
and the stability statements proved below are order-insensitive facts about
the resulting collection. -/
def Describe (c : AnalyticsCollector) : List MetricDesc :=
  c.metrics.map Prod.snd

/-- The value type `prometheus.MustNewConstMetric` is called with. -/
inductive MetricValueType where
  | counter : MetricValueType
  | gauge : MetricValueType
deriving DecidableEq, Repr

/-- One emitted metric sample: descriptor name, value type, float value,
variable label values. -/
structure MetricSample where
  descName : String
  valueType : MetricValueType
  value : GoFloat
  labelValues : List String
deriving DecidableEq, Repr

/-- `Collect` (under the collector mutex): one `GetAnalyticsStats` call; on
error nothing is emitted (the Go code logs fatally and returns); on success
the five simple samples are emitted — note `current_visitors` is emitted with
`prometheus.CounterValue` and `bounce_rate` with `prometheus.GaugeValue`,
the latter carrying `stats.BounceRate` unconditionally — followed by one
gauge sample per entry of each categorical map. -/
def Collect (events : List Event) (now : Int) :
    Except String (List MetricSample) :=
  match GetAnalyticsStats events now with
  | Except.error msg => Except.error msg
  | Except.ok stats =>
      Except.ok (
        [ ⟨"unique_visitors_total", MetricValueType.counter,
            GoFloat.val stats.UniqueVisitors, []⟩,
          ⟨"visits_total", MetricValueType.counter,
            GoFloat.val stats.TotalVisits, []⟩,
          ⟨"page_views", MetricValueType.counter,
            GoFloat.val stats.TotalPageViews, []⟩,
          ⟨"current_visitors", MetricValueType.counter,
            GoFloat.val stats.CurrentVisitors, []⟩,
          ⟨"bounce_rate", MetricValueType.gauge, stats.BounceRate, []⟩ ]
        ++ stats.PagesRate.map
            (fun kv => ⟨"page_rate", MetricValueType.gauge, GoFloat.val kv.2, [kv.1]⟩)
        ++ stats.SourcesRate.map
            (fun kv => ⟨"source_rate", MetricValueType.gauge, GoFloat.val kv.2, [kv.1]⟩)
        ++ stats.DevicesRate.map
            (fun kv => ⟨"device_rate", MetricValueType.gauge, GoFloat.val kv.2, [kv.1]⟩)
        ++ stats.OSsRate.map
            (fun kv => ⟨"os_rate", MetricValueType.gauge, GoFloat.val kv.2, [kv.1]⟩)
        ++ stats.BrowsersRate.map
            (fun kv => ⟨"browser_rate", MetricValueType.gauge, GoFloat.val kv.2, [kv.1]⟩)
        ++ stats.EntryPagesRate.map
            (fun kv => ⟨"entry_pages_rate", MetricValueType.gauge, GoFloat.val kv.2, [kv.1]⟩)
        ++ stats.ExitPagesRate.map
            (fun kv => ⟨"exit_pages_rate", MetricValueType.gauge, GoFloat.val kv.2, [kv.1]⟩))

/-- Whether an `Except` computation succeeded. -/
def exceptOk {ε α : Type} : Except ε α → Bool
  | Except.ok _ => true
  | Except.error _ => false

instance {ε α : Type} [DecidableEq ε] [DecidableEq α] :
    DecidableEq (Except ε α) := fun x y =>
  match x, y with
  | Except.ok a, Except.ok b =>
      if h : a = b then Decidable.isTrue (by rw [h])
      else Decidable.isFalse (by simp [h])
  | Except.error a, Except.error b =>
      if h : a = b then Decidable.isTrue (by rw [h])
      else Decidable.isFalse (by simp [h])
  | Except.ok _, Except.error _ => Decidable.isFalse (by simp)
  | Except.error _, Except.ok _ => Decidable.isFalse (by simp)

/-! ### Concrete sample inputs and outputs used by witnesses and
counterexamples -/

/-- A stored event that is not a page view (`Type = "click"`). -/
def evClick : Event :=
  { ID := "e1", EType := "click", URL := "a", Domain := "web",
    Referrer := "", Browser := "", OS := "", Device := none,
    HashedVisit := "A", Timestamp := 0 }

/-- A stored page-view event for a second fingerprint. -/
def evView : Event :=
  { ID := "e2", EType := "pageview", URL := "a", Domain := "web",
    Referrer := "", Browser := "", OS := "", Device := none,
    HashedVisit := "B", Timestamp := 1 }

/-- An event whose URL cannot be decomposed (empty string). -/
def evBadURL : Event :=
  { ID := "e3", EType := "pageview", URL := "", Domain := "web",
    Referrer := "", Browser := "", OS := "", Device := none,
    HashedVisit := "C", Timestamp := 0 }

/-- The snapshot computed for the single non-page-view event `evClick`. -/
def statsClick : AnalyticsStats :=
  { UniqueVisitors := 1, TotalVisits := 1, TotalPageViews := 0,
    CurrentVisitors := 1, BounceRate := GoFloat.posInf,
    PagesRate := [("/", 1)], SourcesRate := [("Direct/None", 1)],
    DevicesRate := [("Unknown", 1)], OSsRate := [("Unknown", 1)],
    BrowsersRate := [("Unknown", 1)], EntryPagesRate := [("/", 1)],
    ExitPagesRate := [("/", 1)] }

/-- The snapshot computed for `[evClick, evView]` at `now = 0`. -/
def statsClickView : AnalyticsStats :=
  { UniqueVisitors := 2, TotalVisits := 2, TotalPageViews := 1,
    CurrentVisitors := 2, BounceRate := GoFloat.val 2,
    PagesRate := [("/", 2)], SourcesRate := [("Direct/None", 2)],
    DevicesRate := [("Unknown", 2)], OSsRate := [("Unknown", 2)],
    BrowsersRate := [("Unknown", 2)], EntryPagesRate := [("/", 2)],
    ExitPagesRate := [("/", 2)] }

/-- The snapshot computed for the single page-view event `evView`. -/
def statsView : AnalyticsStats :=
  { UniqueVisitors := 1, TotalVisits := 1, TotalPageViews := 1,
    CurrentVisitors := 1, BounceRate := GoFloat.val 1,
    PagesRate := [("/", 1)], SourcesRate := [("Direct/None", 1)],
    DevicesRate := [("Unknown", 1)], OSsRate := [("Unknown", 1)],
    BrowsersRate := [("Unknown", 1)], EntryPagesRate := [("/", 1)],
    ExitPagesRate := [("/", 1)] }

/-- The snapshot computed for an empty event list. -/
def statsEmpty : AnalyticsStats :=
  { UniqueVisitors := 0, TotalVisits := 0, TotalPageViews := 0,
    CurrentVisitors := 0, BounceRate := GoFloat.nan,
    PagesRate := [], SourcesRate := [], DevicesRate := [], OSsRate := [],
    BrowsersRate := [], EntryPagesRate := [], ExitPagesRate := [] }

/-! ### Helper lemmas on the association-list map model -/

theorem sumVals_bump (m : List (String × Nat)) (k : String) :
    sumVals (bump m k) = sumVals m + 1 := by
  induction m with
  | nil => rfl
  | cons kv rest ih =>
      obtain ⟨k', v⟩ := kv
      by_cases h : k' = k <;> simp [bump, h, sumVals] at ih ⊢ <;> omega

theorem getVal_bump_self (m : List (String × Nat)) (k : String) :
    getVal (bump m k) k = getVal m k + 1 := by
  induction m with
  | nil => simp [bump, getVal, lookupA]
  | cons kv rest ih =>
      obtain ⟨k0, v⟩ := kv
      by_cases h : k0 = k
      · subst h; simp [bump, getVal, lookupA]
      · simpa [bump, h, getVal, lookupA] using ih

theorem getVal_bump_other (m : List (String × Nat)) (k k' : String)
    (h : k' ≠ k) : getVal (bump m k) k' = getVal m k' := by
  induction m with
  | nil => simp [bump, getVal, lookupA, Ne.symm h]
  | cons kv rest ih =>
      obtain ⟨k0, v⟩ := kv
      by_cases h0 : k0 = k
      · subst h0; simp [bump, getVal, lookupA, Ne.symm h]
      · by_cases h1 : k0 = k'
        · subst h1; simp [bump, getVal, lookupA, h0]
        · simpa [bump, getVal, lookupA, h0, h1] using ih

theorem sumVals_foldl_bump {β : Type} (f : β → String)
    (l : List β) (m0 : List (String × Nat)) :
    sumVals (l.foldl (fun m v => bump m (f v)) m0) = sumVals m0 + l.length := by
  induction l generalizing m0 with
  | nil => simp
  | cons x xs ih =>
      simp only [List.foldl_cons, ih, sumVals_bump, List.length_cons]
      omega

theorem numVisits_setA_none (m : List (String × List Visit)) (key : String)
    (w : List Visit) (h : lookupA m key = none) :
    numVisits (setA m key w) = numVisits m + w.length := by
  induction m with
  | nil => simp [setA, numVisits]
  | cons kv rest ih =>
      obtain ⟨k, v⟩ := kv
      by_cases hk : k = key
      · simp [lookupA, hk] at h
      · simp [lookupA, hk] at h
        simp [setA, hk, numVisits] at ih ⊢
        have := ih h
        omega

theorem numVisits_setA_some (m : List (String × List Visit)) (key : String)
    (v w : List Visit) (h : lookupA m key = some v) :
    numVisits (setA m key w) + v.length = numVisits m + w.length := by
  induction m with
  | nil => simp [lookupA] at h
  | cons kv rest ih =>
      obtain ⟨k, v0⟩ := kv
      by_cases hk : k = key
      · simp [lookupA, hk] at h
        subst h
        simp [setA, hk, numVisits]
        omega
      · simp [lookupA, hk] at h
        simp [setA, hk, numVisits] at ih ⊢
        have := ih h
        omega

theorem numVisits_addVisitEvent_le (m : List (String × List Visit))
    (fp page : String) (ts : Int) :
    numVisits (addVisitEvent m fp page ts) ≤ numVisits m + 1 := by
  cases hl : lookupA m fp with
  | none =>
      have h1 := numVisits_setA_none m fp [newVisit page ts] hl
      simp only [List.length_cons, List.length_nil] at h1
      simp [addVisitEvent, hl]
      omega
  | some v =>
      cases hg : v.getLast? with
      | none =>
          have hv : v = [] := List.getLast?_eq_none_iff.mp hg
          subst hv
          have h1 := numVisits_setA_some m fp [] [newVisit page ts] hl
          simp only [List.length_cons, List.length_nil, Nat.add_zero] at h1
          simp [addVisitEvent, hl, hg]
          omega
      | some lastVisit =>
          have hvne : v ≠ [] := by rintro rfl; simp at hg
          have hpos : 0 < v.length := List.length_pos.mpr hvne
          by_cases hgap : ts - lastVisit.LastPageViewTimestamp > VisitDuration
          · have h1 := numVisits_setA_some m fp v (v ++ [newVisit page ts]) hl
            simp only [List.length_append, List.length_cons, List.length_nil] at h1
            simp [addVisitEvent, hl, hg, hgap]
            omega
          · have h1 := numVisits_setA_some m fp v
              (v.dropLast ++ [Visit.mk lastVisit.EntryPage page
                (lastVisit.PagesVisited + 1) ts]) hl
            simp only [List.length_append, List.length_cons, List.length_nil,
              List.length_dropLast] at h1
            simp [addVisitEvent, hl, hg, hgap]
            omega

/-! ### Facts about the per-event loop -/

theorem processEvent_ok_facts (st st' : AggState) (e : Event)
    (h : processEvent st e = Except.ok st') :
    sumVals st'.pages = sumVals st.pages + 1 ∧
    sumVals st'.devices = sumVals st.devices + 1 ∧
    sumVals st'.oss = sumVals st.oss + 1 ∧
    sumVals st'.browsers = sumVals st.browsers + 1 ∧
    st'.pageViewsCount
      = st.pageViewsCount + (if e.EType = "pageview" then 1 else 0) ∧
    numVisits st'.visitsMap ≤ numVisits st.visitsMap + 1 := by
  cases hu : extractDomainAndPath e.URL with
  | error msg => simp [processEvent, hu] at h
  | ok dp =>
      obtain ⟨d, p0⟩ := dp
      cases hs : sourceUpdate st.sources d e.Referrer with
      | error msg => simp [processEvent, hu, hs] at h
      | ok sources' =>
          simp only [processEvent, hu, hs, Except.ok.injEq] at h
          subst h
          refine ⟨sumVals_bump _ _, sumVals_bump _ _, sumVals_bump _ _,
            sumVals_bump _ _, ?_, numVisits_addVisitEvent_le _ _ _ _⟩
          by_cases he : e.EType = "pageview" <;> simp [he]

theorem runEvents_ok_facts (l : List Event) :
    ∀ st st', runEvents st l = Except.ok st' →
    sumVals st'.pages = sumVals st.pages + l.length ∧
    sumVals st'.devices = sumVals st.devices + l.length ∧
    sumVals st'.oss = sumVals st.oss + l.length ∧
    sumVals st'.browsers = sumVals st.browsers + l.length ∧
    st'.pageViewsCount
      = st.pageViewsCount + l.countP (fun e => e.EType == "pageview") ∧
    numVisits st'.visitsMap ≤ numVisits st.visitsMap + l.length := by
  induction l with
  | nil =>
      intro st st' h
      simp only [runEvents, Except.ok.injEq] at h
      subst h
      simp
  | cons x xs ih =>
      intro st st' h
      cases hx : processEvent st x with
      | error msg => simp [runEvents, hx] at h
      | ok st1 =>
          simp only [runEvents, hx] at h
          obtain ⟨hp, hd, ho, hb, hc, hv⟩ := processEvent_ok_facts st st1 x hx
          obtain ⟨ihp, ihd, iho, ihb, ihc, ihv⟩ := ih st1 st' h
          have hcount : (x :: xs).countP (fun e => e.EType == "pageview")
              = xs.countP (fun e => e.EType == "pageview")
                + (if x.EType = "pageview" then 1 else 0) := by
            by_cases he : x.EType = "pageview" <;> simp [List.countP_cons, he]
          refine ⟨?_, ?_, ?_, ?_, ?_, ?_⟩ <;>
            simp only [List.length_cons, hcount] <;> omega


theorem processEvent_error_of_malformed (st : AggState) (e : Event)
    (h : exceptOk (extractDomainAndPath e.URL) = false ∨
      (e.Referrer ≠ "" ∧ exceptOk (extractDomainAndPath e.Referrer) = false)) :
    ∃ msg, processEvent st e = Except.error msg := by
  cases hu : extractDomainAndPath e.URL with
  | error msg => exact ⟨msg, by simp [processEvent, hu]⟩
  | ok dp =>
      obtain ⟨d, p0⟩ := dp
      rcases h with h | ⟨hr, hre⟩
      · rw [hu] at h; simp [exceptOk] at h
      · cases hrx : extractDomainAndPath e.Referrer with
        | error msg =>
            refine ⟨msg, ?_⟩
            simp [processEvent, hu, sourceUpdate, hr, hrx]
        | ok dp' => rw [hrx] at hre; simp [exceptOk] at hre

theorem sourceUpdate_ok_of_wellformed (sources : List (String × Nat))
    (d referrer : String)
    (h : referrer = "" ∨ exceptOk (extractDomainAndPath referrer) = true) :
    ∃ sources', sourceUpdate sources d referrer = Except.ok sources' := by
  rcases h with h | h
  · exact ⟨bump sources "Direct/None", by simp [sourceUpdate, h]⟩
  · by_cases hr : referrer = ""
    · exact ⟨bump sources "Direct/None", by simp [sourceUpdate, hr]⟩
    · cases hrx : extractDomainAndPath referrer with
      | error msg => rw [hrx] at h; simp [exceptOk] at h
      | ok dp =>
          obtain ⟨rd, rp⟩ := dp
          by_cases hd : d ≠ rd
          · exact ⟨bump sources (shortSourceLabel rd),
              by simp [sourceUpdate, hr, hrx, hd]⟩
          · exact ⟨sources, by simp [sourceUpdate, hr, hrx, hd]⟩

theorem processEvent_ok_of_wellformed (st : AggState) (e : Event)
    (hu : exceptOk (extractDomainAndPath e.URL) = true)
    (hr : e.Referrer = "" ∨ exceptOk (extractDomainAndPath e.Referrer) = true) :
    ∃ st', processEvent st e = Except.ok st' := by
  cases hux : extractDomainAndPath e.URL with
  | error msg => rw [hux] at hu; simp [exceptOk] at hu
  | ok dp =>
      obtain ⟨d, p0⟩ := dp
      obtain ⟨sources', hs⟩ := sourceUpdate_ok_of_wellformed st.sources d e.Referrer hr
      simp only [processEvent, hux, hs]
      exact ⟨_, rfl⟩

theorem runEvents_error_of_malformed_mem (l : List Event) :
    ∀ st, (∃ e ∈ l, exceptOk (extractDomainAndPath e.URL) = false ∨
      (e.Referrer ≠ "" ∧ exceptOk (extractDomainAndPath e.Referrer) = false)) →
    ∃ msg, runEvents st l = Except.error msg := by
  induction l with
  | nil => intro st h; simp at h
  | cons x xs ih =>
      intro st h
      cases hx : processEvent st x with
      | error msg => exact ⟨msg, by simp [runEvents, hx]⟩
      | ok st1 =>
          obtain ⟨e, he, hbad⟩ := h
          rcases List.mem_cons.mp he with rfl | hmem
          · obtain ⟨msg, hcontra⟩ := processEvent_error_of_malformed st e hbad
            rw [hx] at hcontra
            exact absurd hcontra (by simp)
          · obtain ⟨msg, hrun⟩ := ih st1 ⟨e, hmem, hbad⟩
            exact ⟨msg, by simp [runEvents, hx, hrun]⟩

theorem GetAnalyticsStats_ok_inv (events : List Event) (now : Int)
    (s : AnalyticsStats) (h : GetAnalyticsStats events now = Except.ok s) :
    ∃ st, runEvents initAggState (sortEvents events) = Except.ok st ∧
      s = mkStats st now := by
  cases hr : runEvents initAggState (sortEvents events) with
  | error msg => rw [GetAnalyticsStats, hr] at h; simp [Except.map] at h
  | ok st =>
      rw [GetAnalyticsStats, hr] at h
      simp only [Except.map, Except.ok.injEq] at h
      exact ⟨st, rfl, h.symm⟩

/-! ### Facts about the session post-pass -/

theorem flatten_visits_length (m : List (String × List Visit)) :
    ((m.map Prod.snd).flatten).length = numVisits m := by
  simp only [numVisits, List.length_flatten, List.map_map]
  rfl

theorem mkStats_TotalVisits (st : AggState) (now : Int) :
    (mkStats st now).TotalVisits = numVisits st.visitsMap :=
  flatten_visits_length st.visitsMap

theorem mkStats_entry_exit_sums (st : AggState) (now : Int) :
    sumVals (mkStats st now).EntryPagesRate = numVisits st.visitsMap ∧
    sumVals (mkStats st now).ExitPagesRate = numVisits st.visitsMap := by
  constructor <;>
    · show sumVals (((st.visitsMap.map Prod.snd).flatten).foldl _ []) = _
      rw [sumVals_foldl_bump]
      simp only [sumVals, List.map_nil, List.sum_nil, Nat.zero_add]
      exact flatten_visits_length st.visitsMap

theorem sortEvents_length (events : List Event) :
    (sortEvents events).length = events.length :=
  (List.perm_insertionSort _ events).length_eq

theorem sortEvents_countP (events : List Event) (p : Event → Bool) :
    (sortEvents events).countP p = events.countP p :=
  (List.perm_insertionSort _ events).countP_eq p

theorem goDiv_zero_denom (a : Nat) :
    goDiv a 0 = (if a = 0 then GoFloat.nan else GoFloat.posInf) := by
  simp [goDiv]

/-! ### Claim theorems -/

/-- Claim C9: for every input event sequence, the sum of the entry-page map
values equals the sum of the exit-page map values, and both equal the
total-visits count (the number of reconstructed sessions across all
fingerprints) in the `AnalyticsStats` produced by `GetAnalyticsStats`. -/
theorem entryExit_sums_eq_totalVisits (events : List Event) (now : Int)
    (s : AnalyticsStats) (h : GetAnalyticsStats events now = Except.ok s) :
    sumVals s.EntryPagesRate = s.TotalVisits ∧
    sumVals s.ExitPagesRate = s.TotalVisits := by
  obtain ⟨st, hr, rfl⟩ := GetAnalyticsStats_ok_inv events now s h
  obtain ⟨he, hx⟩ := mkStats_entry_exit_sums st now
  rw [he, hx, mkStats_TotalVisits]
  exact ⟨rfl, rfl⟩

/-- Witness for C9 at the concrete two-event input. -/
theorem entryExit_sums_eq_totalVisits_witness :
    GetAnalyticsStats [evClick, evView] 0 = Except.ok statsClickView ∧
    (sumVals statsClickView.EntryPagesRate = statsClickView.TotalVisits ∧
     sumVals statsClickView.ExitPagesRate = statsClickView.TotalVisits) :=
  ⟨by decide, entryExit_sums_eq_totalVisits [evClick, evView] 0 statsClickView
    (by decide)⟩

/-- Claim C10: every stored event, regardless of its `Type`, contributes
exactly one increment to each of the page, device, OS and browser maps (nil
devices and empty OS/browser strings land in the `"Unknown"` buckets), so
each of these maps sums to the total number of stored events, while the
total page-view count counts only events of type `"pageview"`. -/
theorem categorical_maps_sum_to_event_count (events : List Event) (now : Int)
    (s : AnalyticsStats) (h : GetAnalyticsStats events now = Except.ok s) :
    sumVals s.PagesRate = events.length ∧
    sumVals s.DevicesRate = events.length ∧
    sumVals s.OSsRate = events.length ∧
    sumVals s.BrowsersRate = events.length ∧
    s.TotalPageViews = events.countP (fun e => e.EType == "pageview") ∧
    deviceBucket none = "Unknown" ∧ osBucket "" = "Unknown" ∧
    browserBucket "" = "Unknown" := by
  obtain ⟨st, hr, rfl⟩ := GetAnalyticsStats_ok_inv events now s h
  obtain ⟨hp, hd, ho, hb, hc, _⟩ := runEvents_ok_facts _ _ _ hr
  simp only [initAggState, sumVals, List.map_nil, List.sum_nil,
    Nat.zero_add, sortEvents_length, sortEvents_countP] at hp hd ho hb hc
  exact ⟨hp, hd, ho, hb, hc, rfl, rfl, rfl⟩

/-- Witness for C10 at the concrete one-event non-page-view input. -/
theorem categorical_maps_sum_to_event_count_witness :
    GetAnalyticsStats [evClick] 0 = Except.ok statsClick ∧
    sumVals statsClick.DevicesRate = [evClick].length ∧
    statsClick.TotalPageViews
      = [evClick].countP (fun e => e.EType == "pageview") := by
  refine ⟨by decide, ?_, ?_⟩
  · exact (categorical_maps_sum_to_event_count [evClick] 0 statsClick
      (by decide)).2.1
  · exact (categorical_maps_sum_to_event_count [evClick] 0 statsClick
      (by decide)).2.2.2.2.1

/-- Claim C1 (counterexample): one stored event of type `"click"` yields a
page map (and device/OS/browser maps) summing to 1 while the total
page-view count is 0, so the per-page-view categorical maps do not sum to
the page-view count. -/
theorem perPageView_maps_counterexample :
    GetAnalyticsStats [evClick] 0 = Except.ok statsClick ∧
    sumVals statsClick.PagesRate = 1 ∧ statsClick.TotalPageViews = 0 ∧
    sumVals statsClick.PagesRate ≠ statsClick.TotalPageViews :=
  ⟨by decide, by decide, by decide, by decide⟩

/-- Claim C1 (amended): the page, device, OS and browser maps each sum to
the total number of stored events; this equals the total page-view count
whenever every stored event has type `"pageview"`. -/
theorem perPageView_maps_sum_amended (events : List Event) (now : Int)
    (s : AnalyticsStats) (h : GetAnalyticsStats events now = Except.ok s) :
    (sumVals s.PagesRate = events.length ∧
     sumVals s.DevicesRate = events.length ∧
     sumVals s.OSsRate = events.length ∧
     sumVals s.BrowsersRate = events.length) ∧
    ((∀ e ∈ events, e.EType = "pageview") →
      sumVals s.PagesRate = s.TotalPageViews ∧
      sumVals s.DevicesRate = s.TotalPageViews ∧
      sumVals s.OSsRate = s.TotalPageViews ∧
      sumVals s.BrowsersRate = s.TotalPageViews) := by
  obtain ⟨st, hr, rfl⟩ := GetAnalyticsStats_ok_inv events now s h
  obtain ⟨hp, hd, ho, hb, hc, _⟩ := runEvents_ok_facts _ _ _ hr
  simp only [initAggState, sumVals, List.map_nil, List.sum_nil,
    Nat.zero_add, sortEvents_length, sortEvents_countP] at hp hd ho hb hc
  refine ⟨⟨hp, hd, ho, hb⟩, fun hall => ?_⟩
  have hcount : events.countP (fun e => e.EType == "pageview")
      = events.length :=
    List.countP_eq_length.mpr (fun a ha => by simp [hall a ha])
  have hTPV : (mkStats st now).TotalPageViews = st.pageViewsCount := rfl
  rw [hTPV, hc, hcount]
  exact ⟨hp, hd, ho, hb⟩

/-- Witness for the amended C1 at a concrete all-page-view input. -/
theorem perPageView_maps_sum_amended_witness :
    GetAnalyticsStats [evView] 0 = Except.ok statsView ∧
    sumVals statsView.PagesRate = statsView.TotalPageViews := by
  refine ⟨by decide, ?_⟩
  exact ((perPageView_maps_sum_amended [evView] 0 statsView (by decide)).2
    (by decide)).1

/-- Claim C2 (counterexample): with one `"click"` event and one
`"pageview"` event for distinct fingerprints, the page-view count is
positive but the bounce rate is 2, outside `[0,1]`. -/
theorem bounceRate_counterexample :
    GetAnalyticsStats [evClick, evView] 0 = Except.ok statsClickView ∧
    0 < statsClickView.TotalPageViews ∧
    statsClickView.BounceRate = GoFloat.val 2 ∧ ¬ ((2 : ℚ) ≤ 1) :=
  ⟨by decide, by decide, by decide, by norm_num⟩

/-- Claim C2 (amended): the bounce rate is the one-page-visit count divided
by the total page-view count; when the page-view count is positive it is a
finite non-negative rational, and it lies in `[0,1]` whenever additionally
every stored event has type `"pageview"`; when the page-view count is 0 it
is a non-finite value (NaN or +Inf), not a flagged "no data" sentinel. -/
theorem bounceRate_division_amended (events : List Event) (now : Int)
    (s : AnalyticsStats) (h : GetAnalyticsStats events now = Except.ok s) :
    (0 < s.TotalPageViews →
      ∃ q : ℚ, s.BounceRate = GoFloat.val q ∧ 0 ≤ q ∧
        ((∀ e ∈ events, e.EType = "pageview") → q ≤ 1)) ∧
    (s.TotalPageViews = 0 →
      s.BounceRate = GoFloat.nan ∨ s.BounceRate = GoFloat.posInf) := by
  obtain ⟨st, hr, rfl⟩ := GetAnalyticsStats_ok_inv events now s h
  have hBR : (mkStats st now).BounceRate
      = goDiv (((st.visitsMap.map Prod.snd).flatten).countP
          (fun v => v.PagesVisited == 1)) st.pageViewsCount := rfl
  have hTPV : (mkStats st now).TotalPageViews = st.pageViewsCount := rfl
  have hone_le : ((st.visitsMap.map Prod.snd).flatten).countP
      (fun v => v.PagesVisited == 1) ≤ numVisits st.visitsMap := by
    rw [← flatten_visits_length]
    exact List.countP_le_length _
  have hnv : numVisits st.visitsMap ≤ events.length := by
    have hfacts := (runEvents_ok_facts _ _ _ hr).2.2.2.2.2
    simp only [initAggState, numVisits, List.map_nil, List.sum_nil,
      Nat.zero_add, sortEvents_length] at hfacts
    exact hfacts
  have hc := (runEvents_ok_facts _ _ _ hr).2.2.2.2.1
  simp only [initAggState, Nat.zero_add, sortEvents_countP] at hc
  constructor
  · intro hpos
    rw [hTPV] at hpos
    have hbne : st.pageViewsCount ≠ 0 := Nat.pos_iff_ne_zero.mp hpos
    have hq : (mkRat (((st.visitsMap.map Prod.snd).flatten).countP
        (fun v => v.PagesVisited == 1)) st.pageViewsCount : ℚ)
        = ((((st.visitsMap.map Prod.snd).flatten).countP
            (fun v => v.PagesVisited == 1) : ℚ))
          / (st.pageViewsCount : ℚ) := by
      rw [Rat.mkRat_eq_div, Int.cast_natCast]
    refine ⟨mkRat (((st.visitsMap.map Prod.snd).flatten).countP
      (fun v => v.PagesVisited == 1)) st.pageViewsCount, ?_, ?_, ?_⟩
    · rw [hBR]
      unfold goDiv
      rw [if_neg hbne]
    · rw [hq]
      positivity
    · intro hall
      have hcount : events.countP (fun e => e.EType == "pageview")
          = events.length :=
        List.countP_eq_length.mpr (fun a ha => by simp [hall a ha])
      have hle : ((st.visitsMap.map Prod.snd).flatten).countP
          (fun v => v.PagesVisited == 1) ≤ st.pageViewsCount := by omega
      rw [hq, div_le_one (by exact_mod_cast hpos)]
      exact_mod_cast hle
  · intro h0
    rw [hTPV] at h0
    by_cases h1 : ((st.visitsMap.map Prod.snd).flatten).countP
        (fun v => v.PagesVisited == 1) = 0
    · exact Or.inl (by rw [hBR, h0, goDiv_zero_denom, if_pos h1])
    · exact Or.inr (by rw [hBR, h0, goDiv_zero_denom, if_neg h1])

/-- Witness for the amended C2 at a concrete one-page-view input. -/
theorem bounceRate_division_amended_witness :
    GetAnalyticsStats [evView] 0 = Except.ok statsView ∧
    ∃ q : ℚ, statsView.BounceRate = GoFloat.val q ∧ 0 ≤ q ∧ q ≤ 1 := by
  refine ⟨by decide, ?_⟩
  obtain ⟨q, hq, h0, h1⟩ :=
    (bounceRate_division_amended [evView] 0 statsView (by decide)).1
      (by decide)
  exact ⟨q, hq, h0, h1 (by decide)⟩

/-- Claim C3: when an event for an existing fingerprint is folded in, the
event belongs to the same (last) session iff its gap from that session's
last-seen timestamp is at most the 30-minute `VisitDuration`: on a gap
within the timeout only the last session is extended (exit page set to this
page, page count incremented, last seen advanced) and the session count is
unchanged; on a larger gap a brand-new session is appended. -/
theorem session_window_iff (m : List (String × List Visit)) (fp page : String)
    (t : Int) (v : List Visit) (lastV : Visit)
    (hv : lookupA m fp = some v) (hl : v.getLast? = some lastV) :
    (t - lastV.LastPageViewTimestamp > VisitDuration →
      addVisitEvent m fp page t = setA m fp (v ++ [newVisit page t])) ∧
    (t - lastV.LastPageViewTimestamp ≤ VisitDuration →
      addVisitEvent m fp page t = setA m fp (v.dropLast ++
        [Visit.mk lastV.EntryPage page (lastV.PagesVisited + 1) t])) ∧
    (numVisits (addVisitEvent m fp page t) = numVisits m ↔
      t - lastV.LastPageViewTimestamp ≤ VisitDuration) := by
  have hvne : v ≠ [] := by rintro rfl; simp at hl
  have hpos : 0 < v.length := List.length_pos.mpr hvne
  by_cases hgap : t - lastV.LastPageViewTimestamp > VisitDuration
  · refine ⟨fun _ => ?_, fun hc => absurd hgap (by omega), ?_⟩
    · simp [addVisitEvent, hv, hl, hgap]
    · have h1 := numVisits_setA_some m fp v (v ++ [newVisit page t]) hv
      simp only [List.length_append, List.length_cons, List.length_nil] at h1
      constructor
      · intro heq
        rw [show addVisitEvent m fp page t
            = setA m fp (v ++ [newVisit page t]) from
          by simp [addVisitEvent, hv, hl, hgap]] at heq
        omega
      · intro hc; exact absurd hc (by omega)
  · have hle : t - lastV.LastPageViewTimestamp ≤ VisitDuration := by omega
    refine ⟨fun hc => absurd hc hgap, fun _ => ?_, ?_⟩
    · simp [addVisitEvent, hv, hl, hgap]
    · have h1 := numVisits_setA_some m fp v (v.dropLast ++
        [Visit.mk lastV.EntryPage page (lastV.PagesVisited + 1) t]) hv
      simp only [List.length_append, List.length_cons, List.length_nil,
        List.length_dropLast] at h1
      constructor
      · intro _; exact hle
      · intro _
        rw [show addVisitEvent m fp page t = setA m fp (v.dropLast ++
            [Visit.mk lastV.EntryPage page (lastV.PagesVisited + 1) t]) from
          by simp [addVisitEvent, hv, hl, hgap]]
        omega

/-- Witness for C3: a gap of exactly the timeout extends the one stored
session in place; a gap one nanosecond beyond appends a new session. -/
theorem session_window_iff_witness :
    addVisitEvent [("A", [newVisit "/" 0])] "A" "/x" VisitDuration
      = setA [("A", [newVisit "/" 0])] "A"
          [Visit.mk "/" "/x" 2 VisitDuration] ∧
    numVisits (addVisitEvent [("A", [newVisit "/" 0])] "A" "/y"
      (VisitDuration + 1)) ≠ numVisits [("A", [newVisit "/" 0])] := by
  constructor
  · exact (session_window_iff [("A", [newVisit "/" 0])] "A" "/x" VisitDuration
      [newVisit "/" 0] (newVisit "/" 0) (by decide) (by decide)).2.1
      (by decide)
  · intro heq
    exact absurd ((session_window_iff [("A", [newVisit "/" 0])] "A" "/y"
      (VisitDuration + 1) [newVisit "/" 0] (newVisit "/" 0) (by decide)
      (by decide)).2.2.mp heq) (by decide)

/-- Claim C4 (the code at the failing input): with zero stored events the
snapshot has all-zero counts, all seven categorical maps present but empty,
and a NaN bounce rate — and `Collect` nevertheless emits the bounce-rate
gauge sample carrying that NaN value instead of skipping it or marking it
unavailable. -/
theorem collect_emits_nan_bounce_on_zero_events (now : Int) :
    GetAnalyticsStats [] now = Except.ok statsEmpty ∧
    statsEmpty.BounceRate = GoFloat.nan ∧
    Collect [] now = Except.ok
      [ MetricSample.mk "unique_visitors_total" MetricValueType.counter
          (GoFloat.val 0) [],
        MetricSample.mk "visits_total" MetricValueType.counter
          (GoFloat.val 0) [],
        MetricSample.mk "page_views" MetricValueType.counter
          (GoFloat.val 0) [],
        MetricSample.mk "current_visitors" MetricValueType.counter
          (GoFloat.val 0) [],
        MetricSample.mk "bounce_rate" MetricValueType.gauge GoFloat.nan [] ] ∧
    MetricSample.mk "bounce_rate" MetricValueType.gauge GoFloat.nan []
      ∈ [ MetricSample.mk "unique_visitors_total" MetricValueType.counter
            (GoFloat.val 0) [],
          MetricSample.mk "visits_total" MetricValueType.counter
            (GoFloat.val 0) [],
          MetricSample.mk "page_views" MetricValueType.counter
            (GoFloat.val 0) [],
          MetricSample.mk "current_visitors" MetricValueType.counter
            (GoFloat.val 0) [],
          MetricSample.mk "bounce_rate" MetricValueType.gauge
            GoFloat.nan [] ] := by
  refine ⟨rfl, rfl, ?_, by simp⟩
  rfl

/-- Claim C5: the referrer/source classification — empty referrer bumps
exactly `"Direct/None"` (that bucket up by one, all others unchanged); a
referrer whose host equals the URL host bumps nothing; a different host
bumps the short label built from the last two dot-separated labels of the
referrer host. -/
theorem source_classification (m : List (String × Nat))
    (urlHost referrer rh p : String) :
    (referrer = "" →
      sourceUpdate m urlHost referrer = Except.ok (bump m "Direct/None")) ∧
    (extractDomainAndPath referrer = Except.ok (rh, p) → referrer ≠ "" →
      (rh = urlHost → sourceUpdate m urlHost referrer = Except.ok m) ∧
      (rh ≠ urlHost → sourceUpdate m urlHost referrer
        = Except.ok (bump m (shortSourceLabel rh)))) ∧
    (∀ k, getVal (bump m k) k = getVal m k + 1) ∧
    (∀ k k', k' ≠ k → getVal (bump m k) k' = getVal m k') ∧
    shortSourceLabel "news.ycombinator.com" = "ycombinator.com" := by
  refine ⟨?_, ?_, fun k => getVal_bump_self m k,
    fun k k' hk => getVal_bump_other m k k' hk, by decide⟩
  · intro h
    simp [sourceUpdate, h]
  · intro hx hne
    constructor
    · intro heq
      subst heq
      simp [sourceUpdate, hne, hx]
    · intro hneq
      have h' : urlHost ≠ rh := fun hc => hneq hc.symm
      simp [sourceUpdate, hne, hx, h']

/-- Witness for C5 on the spec scenario inputs. -/
theorem source_classification_witness :
    sourceUpdate [] "example.com" "" = Except.ok [("Direct/None", 1)] ∧
    sourceUpdate [] "example.com" "https://news.ycombinator.com/item"
      = Except.ok [("ycombinator.com", 1)] ∧
    sourceUpdate [] "news.ycombinator.com"
      "https://news.ycombinator.com/item" = Except.ok [] := by
  refine ⟨?_, ?_, ?_⟩
  · exact (source_classification [] "example.com" "" "" "").1 rfl
  · have h := ((source_classification [] "example.com"
      "https://news.ycombinator.com/item" "news.ycombinator.com" "/item").2.1
      (by decide) (by decide)).2 (by decide)
    rw [h]
    decide
  · exact ((source_classification [] "news.ycombinator.com"
      "https://news.ycombinator.com/item" "news.ycombinator.com" "/item").2.1
      (by decide) (by decide)).1 rfl

/-- Claim C6: `Describe` yields the fixed static collection of 12 metric
descriptors — 5 unlabelled and 7 carrying exactly one variable label — each
with the per-property constant labels attached; the collection is a function
of the constructor arguments alone (and does not depend on the property
name bound to the collector), hence identical across every pair of
`Describe` calls on the same collector and independent of snapshots. -/
theorem describe_fixed_descriptors (cl : List (String × String))
    (dom : String) :
    Describe (NewAnalyticsCollector cl dom) = [
      MetricDesc.mk "unique_visitors_total"
        "Total number of unique visitors" [] cl,
      MetricDesc.mk "visits_total" "Total number of visitors" [] cl,
      MetricDesc.mk "page_views" "Total number of page views" [] cl,
      MetricDesc.mk "current_visitors" "Current visitors" [] cl,
      MetricDesc.mk "bounce_rate" "Bounce rate in %" [] cl,
      MetricDesc.mk "page_rate" "Rating of page" ["page"] cl,
      MetricDesc.mk "source_rate" "Rating of source" ["source"] cl,
      MetricDesc.mk "os_rate" "Rating of OS" ["os"] cl,
      MetricDesc.mk "browser_rate" "Rating of browser" ["browser"] cl,
      MetricDesc.mk "device_rate" "Rating of device" ["device"] cl,
      MetricDesc.mk "entry_pages_rate" "Rating of entry pages" ["page"] cl,
      MetricDesc.mk "exit_pages_rate" "Rating of exit pages" ["page"] cl ] ∧
    (Describe (NewAnalyticsCollector cl dom)).length = 12 ∧
    (Describe (NewAnalyticsCollector cl dom)).countP
      (fun d => d.variableLabels.isEmpty) = 5 ∧
    (Describe (NewAnalyticsCollector cl dom)).countP
      (fun d => d.variableLabels.length == 1) = 7 ∧
    (∀ d ∈ Describe (NewAnalyticsCollector cl dom), d.constLabels = cl) ∧
    (∀ dom', Describe (NewAnalyticsCollector cl dom)
      = Describe (NewAnalyticsCollector cl dom')) := by
  refine ⟨rfl, rfl, rfl, rfl, ?_, fun dom' => rfl⟩
  intro d hd
  simp only [Describe, NewAnalyticsCollector, List.map_cons, List.map_nil,
    List.mem_cons, List.not_mem_nil, or_false] at hd
  rcases hd with rfl | rfl | rfl | rfl | rfl | rfl | rfl | rfl | rfl | rfl
    | rfl | rfl <;> rfl

/-- Claim C7: if any event's URL, or any event's non-empty referrer, cannot
be decomposed into at least a host, `GetAnalyticsStats` returns an error
and produces no snapshot at all — the malformed entry is never skipped
per-event and no partial `AnalyticsStats` is returned. -/
theorem malformed_link_aborts_scrape (events : List Event) (now : Int)
    (h : ∃ e ∈ events, exceptOk (extractDomainAndPath e.URL) = false ∨
      (e.Referrer ≠ "" ∧
        exceptOk (extractDomainAndPath e.Referrer) = false)) :
    ∃ msg, GetAnalyticsStats events now = Except.error msg := by
  obtain ⟨e, he, hbad⟩ := h
  have hmem : e ∈ sortEvents events :=
    (List.perm_insertionSort _ events).mem_iff.mpr he
  obtain ⟨msg, hrun⟩ := runEvents_error_of_malformed_mem (sortEvents events)
    initAggState ⟨e, hmem, hbad⟩
  exact ⟨msg, by rw [GetAnalyticsStats, hrun]; rfl⟩

/-- Witness for C7: an event with an empty URL aborts the aggregation. -/
theorem malformed_link_aborts_scrape_witness :
    ∃ msg, GetAnalyticsStats [evBadURL] 0 = Except.error msg :=
  malformed_link_aborts_scrape [evBadURL] 0
    ⟨evBadURL, by decide, Or.inl (by decide)⟩

/-! ### Character-level lemmas for the URL normalizer -/

theorem takeWhile_all {α : Type} (p : α → Bool) (l : List α)
    (h : ∀ c ∈ l, p c = true) : l.takeWhile p = l := by
  induction l with
  | nil => rfl
  | cons a as ih =>
      rw [List.takeWhile_cons_of_pos (h a (List.mem_cons_self a as)),
        ih (fun c hc => h c (List.mem_cons_of_mem a hc))]

theorem split_at_slash (H P : List Char)
    (hH : ∀ c ∈ H, c ≠ '/') (hP : P.head? = some '/' ∨ P = []) :
    (H ++ P).takeWhile (fun c => c != '/') = H ∧
    (H ++ P).dropWhile (fun c => c != '/') = P := by
  induction H with
  | nil =>
      simp only [List.nil_append]
      rcases hP with hp | rfl
      · cases P with
        | nil => simp at hp
        | cons c rest =>
            simp only [List.head?_cons, Option.some.injEq] at hp
            subst hp
            exact ⟨List.takeWhile_cons_of_neg (by simp),
              List.dropWhile_cons_of_neg (by simp)⟩
      · exact ⟨rfl, rfl⟩
  | cons a as ih =>
      have ha : a ≠ '/' := hH a (List.mem_cons_self a as)
      obtain ⟨h1, h2⟩ := ih (fun c hc => hH c (List.mem_cons_of_mem a hc))
      constructor
      · rw [List.cons_append, List.takeWhile_cons_of_pos (by simp [ha]), h1]
      · rw [List.cons_append, List.dropWhile_cons_of_pos (by simp [ha]), h2]

theorem toList_ne_nil (s : String) (h : s ≠ "") : s.toList ≠ [] := by
  intro hn
  apply h
  cases s with
  | mk data =>
      simp only [String.toList] at hn
      subst hn
      rfl

theorem dropScheme_https (X : List Char) (hx : headIsNonSlash X = true) :
    dropScheme ('h' :: 't' :: 't' :: 'p' :: 's' :: ':' :: '/' :: '/' ::X) = X := by
  unfold dropScheme
  rw [show "https://".toList = ['h','t','t','p','s',':','/','/'] from
    by decide]
  simp [hx]

theorem dropScheme_http (X : List Char) (hx : headIsNonSlash X = true) :
    dropScheme ('h' :: 't' :: 't' :: 'p' :: ':' :: '/' :: '/' ::X) = X := by
  cases X with
  | nil => simp [headIsNonSlash] at hx
  | cons x X' =>
      unfold dropScheme
      rw [show "https://".toList = ['h','t','t','p','s',':','/','/'] from
        by decide,
        show "http://".toList = ['h','t','t','p',':','/','/'] from by decide]
      rw [if_neg ?_]
      · simp [hx]
      · intro hcond
        rw [Bool.and_eq_true, decide_eq_true_eq] at hcond
        have h8 : ('h' :: 't' :: 't' :: 'p' :: ':' :: '/' :: '/' ::x::X').take 8
            = 'h' :: 't' :: 't' :: 'p' :: ':' :: '/' :: '/' ::(x::X').take 1 := by
          simp [List.take_succ_cons]
        rw [h8] at hcond
        have := hcond.1
        simp only [List.take_succ_cons, List.take_zero, List.cons.injEq]
          at this
        exact absurd this.2.2.2.2.1 (by decide)

theorem extractCore_noscheme (H P : List Char) (hne : H ≠ [])
    (hH : ∀ c ∈ H, c ≠ '/') (hP : P.head? = some '/' ∨ P = [])
    (hPn : ∀ c ∈ P, c ≠ '\n')
    (hns : dropScheme (H ++ P) = H ++ P) :
    extractCore (H ++ P) = some (H, if P.isEmpty then ['/'] else P) := by
  obtain ⟨a, H', rfl⟩ : ∃ a H', H = a :: H' := by
    cases H with
    | nil => exact absurd rfl hne
    | cons a H' => exact ⟨a, H', rfl⟩
  have ha : a ≠ '/' := hH a (List.mem_cons_self a H')
  obtain ⟨htw, hdw⟩ := split_at_slash (a :: H') P hH hP
  simp only [List.cons_append] at hns htw hdw
  simp only [extractCore, List.cons_append]
  rw [List.dropWhile_cons_of_neg (by simp [ha])]
  rw [if_neg (by simp)]
  rw [hns, htw, hdw, takeWhile_all _ P (fun c hc => by simp [hPn c hc])]

theorem extractCore_https (H P : List Char) (hne : H ≠ [])
    (hH : ∀ c ∈ H, c ≠ '/') (hP : P.head? = some '/' ∨ P = [])
    (hPn : ∀ c ∈ P, c ≠ '\n') :
    extractCore ('h' :: 't' :: 't' :: 'p' :: 's' :: ':' :: '/' :: '/' ::(H ++ P))
      = some (H, if P.isEmpty then ['/'] else P) := by
  obtain ⟨a, H', rfl⟩ : ∃ a H', H = a :: H' := by
    cases H with
    | nil => exact absurd rfl hne
    | cons a H' => exact ⟨a, H', rfl⟩
  have ha : a ≠ '/' := hH a (List.mem_cons_self a H')
  have hx : headIsNonSlash ((a :: H') ++ P) = true := by
    simp [headIsNonSlash, ha]
  obtain ⟨htw, hdw⟩ := split_at_slash (a :: H') P hH hP
  have hds := dropScheme_https ((a :: H') ++ P) hx
  simp only [List.cons_append] at htw hdw hds
  simp only [extractCore, List.cons_append]
  rw [List.dropWhile_cons_of_neg (by decide)]
  rw [if_neg (by simp)]
  rw [hds, htw, hdw, takeWhile_all _ P (fun c hc => by simp [hPn c hc])]

theorem extractCore_http (H P : List Char) (hne : H ≠ [])
    (hH : ∀ c ∈ H, c ≠ '/') (hP : P.head? = some '/' ∨ P = [])
    (hPn : ∀ c ∈ P, c ≠ '\n') :
    extractCore ('h' :: 't' :: 't' :: 'p' :: ':' :: '/' :: '/' ::(H ++ P))
      = some (H, if P.isEmpty then ['/'] else P) := by
  obtain ⟨a, H', rfl⟩ : ∃ a H', H = a :: H' := by
    cases H with
    | nil => exact absurd rfl hne
    | cons a H' => exact ⟨a, H', rfl⟩
  have ha : a ≠ '/' := hH a (List.mem_cons_self a H')
  have hx : headIsNonSlash ((a :: H') ++ P) = true := by
    simp [headIsNonSlash, ha]
  obtain ⟨htw, hdw⟩ := split_at_slash (a :: H') P hH hP
  have hds := dropScheme_http ((a :: H') ++ P) hx
  simp only [List.cons_append] at htw hdw hds
  simp only [extractCore, List.cons_append]
  rw [List.dropWhile_cons_of_neg (by decide)]
  rw [if_neg (by simp)]
  rw [hds, htw, hdw, takeWhile_all _ P (fun c hc => by simp [hPn c hc])]

theorem dropScheme_eq_of_no_slash (H : List Char)
    (hH : ∀ c ∈ H, c ≠ '/') : dropScheme H = H := by
  have htake8 : H.take 8 ≠ ['h','t','t','p','s',':','/','/'] := by
    intro hc
    have hm : '/' ∈ H.take 8 := by rw [hc]; decide
    exact hH '/' (List.take_subset 8 H hm) rfl
  have htake7 : H.take 7 ≠ ['h','t','t','p',':','/','/'] := by
    intro hc
    have hm : '/' ∈ H.take 7 := by rw [hc]; decide
    exact hH '/' (List.take_subset 7 H hm) rfl
  simp [dropScheme, htake8, htake7]

/-- Claim C8: the normalizer accepts an optional `http://` or `https://`
scheme prefix and extracts (host, path); with no path segment the path
defaults to `"/"`; and the page key strips a trailing `.html`, so
`https://example.com/page.html` yields host `example.com`, path
`/page.html` and page key `/page`.  (For a scheme-less link the statement
assumes the link does not itself begin with a usable scheme prefix, which
`dropScheme` would otherwise consume.) -/
theorem url_normalizer_contract (host path : String)
    (hh : host ≠ "") (hslash : ∀ c ∈ host.toList, c ≠ '/')
    (hp : path.toList.head? = some '/')
    (hpn : ∀ c ∈ path.toList, c ≠ '\n') :
    extractDomainAndPath ("https://" ++ host ++ path)
      = Except.ok (host, path) ∧
    extractDomainAndPath ("http://" ++ host ++ path)
      = Except.ok (host, path) ∧
    (dropScheme (host.toList ++ path.toList) = host.toList ++ path.toList →
      extractDomainAndPath (host ++ path) = Except.ok (host, path)) ∧
    extractDomainAndPath ("https://" ++ host) = Except.ok (host, "/") ∧
    extractDomainAndPath host = Except.ok (host, "/") ∧
    stripHtmlSuffix "/page.html" = "/page" ∧
    extractDomainAndPath "https://example.com/page.html"
      = Except.ok ("example.com", "/page.html") := by
  have hne : host.toList ≠ [] := toList_ne_nil host hh
  have hpe : path.toList.isEmpty = false := by
    cases h : path.toList with
    | nil => rw [h] at hp; simp at hp
    | cons c cs => rfl
  have hr1 : ("https://" ++ host ++ path).toList
      = 'h' :: 't' :: 't' :: 'p' :: 's' :: ':' :: '/' :: '/'
        ::(host.toList ++ path.toList) := by
    show (("https://" ++ host) ++ path).data = _
    rw [String.data_append, String.data_append,
      show "https://".data = ['h','t','t','p','s',':','/','/'] from
        by decide]
    simp
  have hr2 : ("http://" ++ host ++ path).toList
      = 'h' :: 't' :: 't' :: 'p' :: ':' :: '/' :: '/' ::(host.toList ++ path.toList) := by
    show (("http://" ++ host) ++ path).data = _
    rw [String.data_append, String.data_append,
      show "http://".data = ['h','t','t','p',':','/','/'] from by decide]
    simp
  have hr3 : (host ++ path).toList = host.toList ++ path.toList := by
    show (host ++ path).data = _
    rw [String.data_append]
    rfl
  have hr4 : ("https://" ++ host).toList
      = 'h' :: 't' :: 't' :: 'p' :: 's' :: ':' :: '/' :: '/' ::host.toList := by
    show ("https://" ++ host).data = _
    rw [String.data_append,
      show "https://".data = ['h','t','t','p','s',':','/','/'] from
        by decide]
    simp
  refine ⟨?_, ?_, ?_, ?_, ?_, by decide, by decide⟩
  · unfold extractDomainAndPath
    rw [hr1, extractCore_https host.toList path.toList hne hslash
      (Or.inl hp) hpn, hpe]
    rfl
  · unfold extractDomainAndPath
    rw [hr2, extractCore_http host.toList path.toList hne hslash
      (Or.inl hp) hpn, hpe]
    rfl
  · intro hns
    unfold extractDomainAndPath
    rw [hr3, extractCore_noscheme host.toList path.toList hne hslash
      (Or.inl hp) hpn hns, hpe]
    rfl
  · unfold extractDomainAndPath
    have h4 := extractCore_https host.toList [] hne hslash (Or.inr rfl)
      (by simp)
    simp only [List.append_nil] at h4
    rw [hr4, h4]
    rfl
  · unfold extractDomainAndPath
    have hds := dropScheme_eq_of_no_slash host.toList hslash
    have h5 := extractCore_noscheme host.toList [] hne hslash (Or.inr rfl)
      (by simp) (by simpa using hds)
    simp only [List.append_nil] at h5
    rw [h5]
    rfl

/-- Witness for C8 at a concrete host and path. -/
theorem url_normalizer_contract_witness :
    extractDomainAndPath ("https://" ++ "example.com" ++ "/x")
      = Except.ok ("example.com", "/x") ∧
    extractDomainAndPath "example.com" = Except.ok ("example.com", "/") := by
  have h := url_normalizer_contract "example.com" "/x" (by decide)
    (by decide) (by decide) (by decide)
  exact ⟨h.1, h.2.2.2.2.1⟩
